import Mathlib

/-!
Verification of the ClusterMark Cluster Annotation Workflow Engine.

The definitions below are a shallow embedding of the client-side workflow
controller (`src/unnamed/part_008`, the `AnnotationPage` component) and the
step components `ReviewStep.tsx`, `OutlierAnnotationStep.tsx` and
`BatchLabelStep.tsx` of `src/frontend/src/components/annotation/`.
JavaScript `Map` objects are modelled as insertion-ordered association
lists; React state handlers become pure functions from the component state
(plus the outcome of the awaited network call) to the next state together
with the API request they issue, if any.
-/

namespace ClusterMark

/-- Image annotation status, from `src/frontend/src/types/index.ts`
(`type AnnotationStatus = "pending" | "outlier" | "annotated"`). -/
inductive AnnotationStatus
  | pending
  | outlier
  | annotated
deriving DecidableEq, Repr

/-- An image record, from `interface Image` in
`src/frontend/src/types/index.ts`.  The optional metadata fields
(`initial_label`, `current_label`, `annotated_at`, `quality_attributes`)
are not consulted by any of the verified code paths and are omitted. -/
structure Image where
  id : String
  cluster_id : String
  episode_id : String
  file_path : String
  filename : String
  annotation_status : AnnotationStatus
deriving DecidableEq, Repr

/-- A cluster record, from `interface Cluster` in
`src/frontend/src/types/index.ts`; only the fields read by the
annotation workflow are kept (`image_paths`, `person_name`,
`is_single_person`, `initial_label`, `cluster_number` are unused here). -/
structure Cluster where
  id : String
  episode_id : String
  cluster_name : String
  annotation_status : String
  has_outliers : Bool
  outlier_count : Nat
deriving DecidableEq, Repr

/-- From `interface PaginatedImagesResponse` in
`src/frontend/src/types/index.ts` (optional `initial_label` omitted). -/
structure PaginatedImagesResponse where
  cluster_id : String
  cluster_name : String
  images : List Image
  total_count : Nat
  page : Nat
  page_size : Nat
  has_next : Bool
  has_prev : Bool
deriving DecidableEq, Repr

/-- From `interface ClusterAnnotateBatch` in `src/frontend/src/types/index.ts`. -/
structure ClusterAnnotateBatch where
  person_name : String
  is_custom_label : Bool
deriving DecidableEq, Repr

/-- One entry of the outlier annotation request list built by
`handleOutliersSubmit` in `src/unnamed/part_008`
(`{ image_id, person_name, is_custom_label }`). -/
structure OutlierAnnotationReq where
  image_id : String
  person_name : String
  is_custom_label : Bool
deriving DecidableEq, Repr

/-- The value stored in the `outlierAnnotations` map of
`src/unnamed/part_008` (`{ label: string; isCustom: boolean }`). -/
structure OutlierLabelEntry where
  label : String
  isCustom : Bool
deriving DecidableEq, Repr

/-! ### JavaScript `Map` model

A JS `Map` keyed by strings, modelled as an insertion-ordered association
list: `set` overwrites in place when the key is present and appends
otherwise, `delete` removes the entry, iteration follows list order. -/

structure JsMap (α : Type) where
  entries : List (String × α)
deriving DecidableEq, Repr

namespace JsMap

def empty {α : Type} : JsMap α := ⟨[]⟩

/-- Models `Map.prototype.get` (returns `undefined`, i.e. `none`, when absent). -/
def get {α : Type} (m : JsMap α) (k : String) : Option α :=
  (m.entries.find? (fun p => p.1 == k)).map Prod.snd

/-- Models `Map.prototype.has`. -/
def hasKey {α : Type} (m : JsMap α) (k : String) : Bool :=
  (m.get k).isSome

/-- Helper for `Map.prototype.set`: replace in place or append. -/
def setEntries {α : Type} : List (String × α) → String → α → List (String × α)
  | [], k, v => [(k, v)]
  | (k', v') :: t, k, v =>
      if k' == k then (k, v) :: t else (k', v') :: setEntries t k v

/-- Models `Map.prototype.set`. -/
def set {α : Type} (m : JsMap α) (k : String) (v : α) : JsMap α :=
  ⟨setEntries m.entries k v⟩

/-- Models `Map.prototype.delete` (removes the entry with the given key). -/
def del {α : Type} (m : JsMap α) (k : String) : JsMap α :=
  ⟨m.entries.filter (fun p => p.1 != k)⟩

/-- Models `Map.prototype.size`. -/
def size {α : Type} (m : JsMap α) : Nat := m.entries.length

/-- Models `Array.from(m.keys())`. -/
def keysList {α : Type} (m : JsMap α) : List String := m.entries.map Prod.fst

/-- Models `Array.from(m.values())`. -/
def valuesList {α : Type} (m : JsMap α) : List α := m.entries.map Prod.snd

/-- Well-formedness invariant maintained by every JS `Map`: keys are
pairwise distinct. -/
def wf {α : Type} (m : JsMap α) : Prop := m.keysList.Nodup

instance {α : Type} (m : JsMap α) : Decidable (m.wf) := by
  unfold wf; infer_instance

end JsMap

/-! ### String trimming

`String.prototype.trim()` removes leading and trailing whitespace. -/

/-- Drop leading and trailing whitespace characters. -/
def trimChars (l : List Char) : List Char :=
  ((l.dropWhile Char.isWhitespace).reverse.dropWhile Char.isWhitespace).reverse

/-- JavaScript `s.trim()`, on the character-list representation of
Lean strings. -/
def jsTrim (s : String) : String :=
  String.mk (trimChars s.data)

/-! ### Workflow state -/

/-- From `type WorkflowStep` in `src/unnamed/part_008` (the string literals
`"review" | "batch-label" | "annotate-outliers" | "label-remaining" |
"done"` become constructors). -/
inductive WorkflowStep
  | review
  | batchLabel
  | annotateOutliers
  | labelRemaining
  | done
deriving DecidableEq, Repr

/-- The mutating API requests the workflow can issue through
`clusterApi` (`src/frontend/src/services/api.ts`). -/
inductive ApiCall
  | markOutliersReq (cluster_id : String) (outlier_image_ids : List String)
  | annotateBatchReq (cluster_id : String) (req : ClusterAnnotateBatch)
  | annotateOutliersReq (annotations : List OutlierAnnotationReq)
deriving DecidableEq, Repr

/-- Outcome of an awaited mutating `axios` call, as observed by the
`catch` blocks of `src/unnamed/part_008`: success, or a failure that
`handleApiError` inspects (`some d` when the response carries a
`detail` field, `none` otherwise). -/
inductive ApiOutcome
  | ok
  | fail (detail : Option String)
deriving DecidableEq, Repr

/-- Outcome of an awaited fetch (`GET`) call: a payload, an HTTP error
response with a status code, or a transport failure with no response
(`err.response` is `undefined`).  Both error forms satisfy
`axios.isAxiosError`. -/
inductive FetchOutcome (α : Type)
  | ok (val : α)
  | httpError (status : Nat) (detail : Option String)
  | networkError
deriving DecidableEq, Repr

/-- The React state of the `AnnotationPage` component
(`src/unnamed/part_008`, the `useState` hooks). -/
structure PageState where
  clusterId : Option String
  cluster : Option Cluster
  paginatedData : Option PaginatedImagesResponse
  loading : Bool
  error : Option String
  outliersLoadError : Option String
  outliersLoading : Bool
  currentPage : Nat
  pageSize : Nat
  step : WorkflowStep
  selectedOutlierImages : JsMap Image
  outlierAnnotations : JsMap OutlierLabelEntry
  batchLabel : String
  batchIsCustomLabel : Bool
  submitting : Bool
  speakers : List String
  speakersLoading : Bool
deriving DecidableEq, Repr

/-! ### Handlers of `src/unnamed/part_008` -/

/-- Source `toggleOutlier` (lines 246–257): the functional update applied to
`selectedOutlierImages`. -/
def toggleOutlier (image : Image) (prev : JsMap Image) : JsMap Image :=
  if prev.hasKey image.id then prev.del image.id else prev.set image.id image

/-- Source `handleOutlierLabelChange` (lines 323–337): the functional update
applied to `outlierAnnotations`.  A JS string is truthy exactly when it
is non-empty, so `if (label)` stores the entry for a non-empty label and
deletes it for the empty one. -/
def handleOutlierLabelChange (imageId : String) (label : String)
    (isCustom : Bool) (prev : JsMap OutlierLabelEntry) :
    JsMap OutlierLabelEntry :=
  if label ≠ "" then prev.set imageId ⟨label, isCustom⟩
  else prev.del imageId

/-- Source `handleApiError` (lines 238–244): pick the server-provided `detail`
when present, the default message otherwise. -/
def handleApiError (detail : Option String) (defaultMessage : String) :
    String :=
  detail.getD defaultMessage

/-- The `needsOutlierSync` condition of `handleContinue` (line 266):
`cluster?.has_outliers || selectedOutlierImages.size > 0`. -/
def needsOutlierSync (s : PageState) : Bool :=
  (match s.cluster with
    | some c => c.has_outliers
    | none => false)
  || s.selectedOutlierImages.size > 0

/-- Source `handleContinue` (lines 259–295), run to completion: the state after
the handler returns together with the `markOutliers` request it issued,
if any.  `outcome` is the resolution of the awaited
`clusterApi.markOutliers` call (unused when no call is made). -/
def handleContinue (s : PageState) (outcome : ApiOutcome) :
    PageState × Option ApiCall :=
  match s.clusterId with
  | none => (s, none)
  | some cid =>
    if needsOutlierSync s then
      let call := ApiCall.markOutliersReq cid s.selectedOutlierImages.keysList
      match outcome with
      | .ok =>
          let step' := if s.selectedOutlierImages.size = 0 then
              WorkflowStep.batchLabel
            else
              WorkflowStep.annotateOutliers
          ({ s with submitting := false, error := none, step := step' },
           some call)
      | .fail detail =>
          ({ s with submitting := false,
                    error := some (handleApiError detail "Failed to mark outliers") },
           some call)
    else
      ({ s with step := WorkflowStep.batchLabel }, none)

/-- Source `handleBatchLabelChange` (lines 298–301). -/
def handleBatchLabelChange (label : String) (isCustom : Bool)
    (s : PageState) : PageState :=
  { s with batchLabel := label, batchIsCustomLabel := isCustom }

/-- Source `handleBatchSubmit` (lines 303–320), run to completion. -/
def handleBatchSubmit (s : PageState) (outcome : ApiOutcome) :
    PageState × Option ApiCall :=
  match s.clusterId with
  | none => (s, none)
  | some cid =>
    if jsTrim s.batchLabel = "" then (s, none)
    else
      let call := ApiCall.annotateBatchReq cid
        ⟨jsTrim s.batchLabel, s.batchIsCustomLabel⟩
      match outcome with
      | .ok =>
          ({ s with submitting := false, error := none,
                    step := WorkflowStep.done }, some call)
      | .fail detail =>
          ({ s with submitting := false,
                    error := some (handleApiError detail "Failed to save batch annotation") },
           some call)

/-- Source `handleOutliersSubmit` (lines 339–361), run to completion. -/
def handleOutliersSubmit (s : PageState) (outcome : ApiOutcome) :
    PageState × Option ApiCall :=
  if s.clusterId = none
      ∨ s.outlierAnnotations.size ≠ s.selectedOutlierImages.size then
    (s, none)
  else
    let annotationList : List OutlierAnnotationReq :=
      s.outlierAnnotations.entries.map
        (fun p => ⟨p.1, jsTrim p.2.label, p.2.isCustom⟩)
    let call := ApiCall.annotateOutliersReq annotationList
    match outcome with
    | .ok =>
        ({ s with submitting := false, error := none,
                  step := WorkflowStep.labelRemaining }, some call)
    | .fail detail =>
        ({ s with submitting := false,
                  error := some (handleApiError detail "Failed to save outlier annotations") },
         some call)

/-- Source `handlePageChange` (lines 363–365). -/
def handlePageChange (newPage : Nat) (s : PageState) : PageState :=
  { s with currentPage := newPage }

/-- Source `handlePageSizeChange` (lines 367–370). -/
def handlePageSizeChange (newSize : Nat) (s : PageState) : PageState :=
  { s with pageSize := newSize, currentPage := 1 }

/-! ### Resume Loader (`loadExistingOutliers`, lines 127–183) -/

/-- The `backendOutliers` map built from the fetched outlier list
(`response.data.outliers.forEach((img) => backendOutliers.set(img.id, img))`). -/
def backendOutliersMap (outliers : List Image) : JsMap Image :=
  outliers.foldl (fun m img => m.set img.id img) JsMap.empty

/-- The functional update passed to `setSelectedOutlierImages` (lines
143–152): copy `prev`, then add each backend outlier whose id is not
already present. -/
def mergeOutliers (prev : JsMap Image) (fetched : List Image) : JsMap Image :=
  (backendOutliersMap fetched).entries.foldl
    (fun merged p => if merged.hasKey p.1 then merged else merged.set p.1 p.2)
    prev

/-- The slice of component state written by `loadExistingOutliers`. -/
structure OutliersLoadResult where
  selectedOutlierImages : JsMap Image
  outliersLoadError : Option String
  outliersLoading : Bool
deriving DecidableEq, Repr

/-- Source `loadExistingOutliers` (lines 132–175), in the un-cancelled case,
as a function of the fetch outcome: on success the merge runs only when
the fetched list is non-empty and any previous error is cleared; an HTTP
404 response is silently ignored; every other axios failure records the
blocking `outliersLoadError`; the `finally` block always clears
`outliersLoading`. -/
def loadExistingOutliers (prev : JsMap Image) (prevErr : Option String)
    (outcome : FetchOutcome (List Image)) : OutliersLoadResult :=
  match outcome with
  | .ok outliers =>
      { selectedOutlierImages :=
          if outliers.length > 0 then mergeOutliers prev outliers else prev
        outliersLoadError := none
        outliersLoading := false }
  | .httpError status _ =>
      { selectedOutlierImages := prev
        outliersLoadError :=
          if status ≠ 404 then
            some "Failed to load existing outliers. Cannot continue safely."
          else prevErr
        outliersLoading := false }
  | .networkError =>
      { selectedOutlierImages := prev
        outliersLoadError :=
          some "Failed to load existing outliers. Cannot continue safely."
        outliersLoading := false }

/-! ### Cancellable fetch effects (lines 69–92 and 187–220)

Each effect captures a local `isCancelled` flag; the cleanup function —
run when the effect's dependencies (`clusterId`, `currentPage`,
`pageSize`, `step`) change or the component unmounts — sets it to
`true`, and every state write after the `await` is guarded by
`if (!isCancelled)`.  The functions below model the response-processing
half of one effect instance; `isCancelled = true` means the instance was
superseded before its response arrived. -/

/-- The success path of the pagination effect (lines 195–201 and the
`finally` block): each write is guarded separately, as in the source. -/
def applyImagesSuccess (isCancelled : Bool)
    (data : PaginatedImagesResponse) (s : PageState) : PageState :=
  let s1 := if !isCancelled then { s with paginatedData := some data } else s
  if !isCancelled then { s1 with loading := false } else s1

/-- The failure path of the pagination effect (lines 203–211). -/
def applyImagesFailure (isCancelled : Bool) (s : PageState) : PageState :=
  let s1 := if !isCancelled then { s with error := some "Failed to load images" } else s
  if !isCancelled then { s1 with loading := false } else s1

/-- The success path of the cluster-metadata effect (lines 75–78). -/
def applyMetadataSuccess (isCancelled : Bool) (c : Cluster)
    (s : PageState) : PageState :=
  if !isCancelled then { s with cluster := some c } else s

/-- The failure path of the cluster-metadata effect (lines 79–83). -/
def applyMetadataFailure (isCancelled : Bool) (s : PageState) : PageState :=
  if !isCancelled then { s with error := some "Failed to load cluster metadata" } else s

/-- Response processing of one pagination-effect instance. -/
def applyImagesResponse (isCancelled : Bool)
    (outcome : FetchOutcome PaginatedImagesResponse) (s : PageState) :
    PageState :=
  match outcome with
  | .ok data => applyImagesSuccess isCancelled data s
  | .httpError _ _ => applyImagesFailure isCancelled s
  | .networkError => applyImagesFailure isCancelled s

/-- Response processing of one metadata-effect instance. -/
def applyMetadataResponse (isCancelled : Bool)
    (outcome : FetchOutcome Cluster) (s : PageState) : PageState :=
  match outcome with
  | .ok c => applyMetadataSuccess isCancelled c s
  | .httpError _ _ => applyMetadataFailure isCancelled s
  | .networkError => applyMetadataFailure isCancelled s

/-! ### Rendered controls -/

/-- The `disabled` prop the page passes to `ReviewStep`
(`src/unnamed/part_008` line 434):
`submitting || outliersLoadError !== null || outliersLoading`. -/
def reviewStepDisabledProp (s : PageState) : Bool :=
  s.submitting || s.outliersLoadError.isSome || s.outliersLoading

/-- The `disabled` flags of every interactive control rendered by
`ReviewStep` (`src/frontend/src/components/annotation/ReviewStep.tsx`). -/
structure ReviewStepControls where
  pageSizeSelectorDisabled : Bool
  imageToggleDisabled : List (String × Bool)
  prevDisabled : Bool
  nextDisabled : Bool
  continueDisabled : Bool
deriving DecidableEq, Repr

/-- The rendering of `ReviewStep`, restricted to the `disabled` attribute of
each interactive control: the page-size `select` (line 62), every image
toggle button of the grid (line 81), the previous/next page buttons
(lines 103 and 113) and the Continue button (line 129). -/
def renderReviewStep (images : List Image) (hasNext hasPrev disabled : Bool) :
    ReviewStepControls :=
  { pageSizeSelectorDisabled := disabled
    imageToggleDisabled := images.map (fun image => (image.id, disabled))
    prevDisabled := !hasPrev || disabled
    nextDisabled := !hasNext || disabled
    continueDisabled := disabled }

/-- The `disabled` attribute of the `BatchLabelStep` submit button
(`BatchLabelStep.tsx` line 53): `!label.trim() || disabled`. -/
def batchSubmitButtonDisabled (label : String) (disabled : Bool) : Bool :=
  (jsTrim label == "") || disabled

/-- The `disabled` attribute of the `OutlierAnnotationStep` submit
button (`OutlierAnnotationStep.tsx` line 115):
`annotations.size !== outlierImages.length || disabled`. -/
def outlierSubmitButtonDisabled (annotations : JsMap OutlierLabelEntry)
    (outlierImages : List Image) (disabled : Bool) : Bool :=
  (annotations.size != outlierImages.length) || disabled

/-! ### Spec-modelled backend operations

The server-side implementation is not part of the sources; the two
operations the claims need are modelled from the spec. -/

/-- Errors of the backend operations (spec §7). -/
inductive BackendError
  | notFound
  | ownershipViolation
  | validationError
  | alreadyCompleted
deriving DecidableEq, Repr

/-- Modelled from the spec: the Outlier Synchronizer `mark_outliers`
(spec §4.2) — the backend implementation is missing from the sources.
Given the image store, it checks that every supplied id belongs to the
cluster (else `OwnershipViolation`, no mutation); images in the list are
set to `outlier` and images of the cluster at `outlier` but absent from
the list are reset to `pending`, while images already `annotated` are
untouched and excluded from consideration; it returns the updated store
together with the resulting count of outliers of the cluster. -/
def mark_outliers (images : List Image) (cluster_id : String)
    (outlier_image_ids : List String) :
    Except BackendError (List Image × Nat) :=
  if !outlier_image_ids.all (fun i =>
      images.any (fun img => img.id == i && img.cluster_id == cluster_id)) then
    .error .ownershipViolation
  else
    let updated := images.map (fun img =>
      if img.cluster_id != cluster_id
          || img.annotation_status == AnnotationStatus.annotated then img
      else if outlier_image_ids.contains img.id then
        { img with annotation_status := AnnotationStatus.outlier }
      else if img.annotation_status == AnnotationStatus.outlier then
        { img with annotation_status := AnnotationStatus.pending }
      else img)
    let count := (updated.filter (fun img =>
      img.cluster_id == cluster_id
        && img.annotation_status == AnnotationStatus.outlier)).length
    .ok (updated, count)

/-- Modelled from the spec: the empty-label validation of
`annotate_batch` (spec §4.3, "Fails with `ValidationError` if
`person_name` is empty after trimming") — the backend implementation is
missing from the sources. -/
def annotateBatchRejectsLabel (req : ClusterAnnotateBatch) : Bool :=
  jsTrim req.person_name == ""

/-! ### The workflow event machine

One step of the page: a user interaction on a rendered, enabled control,
or the resolution of an asynchronous effect.  A handler can only run
when its component is rendered (the `step === ...` conditions of the
JSX, lines 421–480) and its triggering control is enabled. -/

/-- The events the page can process. -/
inductive Event
  | toggleEvt (image : Image)
  | pageChangeEvt (newPage : Nat)
  | pageSizeChangeEvt (newSize : Nat)
  | continueEvt (outcome : ApiOutcome)
  | batchLabelChangeEvt (label : String) (isCustom : Bool)
  | batchSubmitEvt (outcome : ApiOutcome)
  | outlierLabelChangeEvt (imageId : String) (label : String) (isCustom : Bool)
  | outliersSubmitEvt (outcome : ApiOutcome)
  | outliersLoadedEvt (outcome : FetchOutcome (List Image))
  | metadataLoadedEvt (outcome : FetchOutcome Cluster)
  | imagesLoadedEvt (outcome : FetchOutcome PaginatedImagesResponse)
deriving Repr

/-- Holds when `ReviewStep` is rendered: `step === "review" && paginatedData`
(line 421). -/
def reviewRendered (s : PageState) : Bool :=
  s.step == WorkflowStep.review && s.paginatedData.isSome

/-- Holds when `BatchLabelStep` is rendered: at `batch-label` (line 439) and at
`label-remaining` (line 465), in both cases with
`onSubmit={handleBatchSubmit}` and
`disabled={submitting || speakersLoading}`. -/
def batchStepRendered (s : PageState) : Bool :=
  s.step == WorkflowStep.batchLabel || s.step == WorkflowStep.labelRemaining

/-- The `disabled` prop of both label steps (lines 447 and 459):
`submitting || speakersLoading`. -/
def labelStepDisabledProp (s : PageState) : Bool :=
  s.submitting || s.speakersLoading

/-- Holds when `OutlierAnnotationStep` is rendered: `step === "annotate-outliers"`
(line 453). -/
def outlierStepRendered (s : PageState) : Bool :=
  s.step == WorkflowStep.annotateOutliers

/-- One step of the page: the next state together with the mutating API
request issued during the step, if any. -/
def dispatch (s : PageState) (e : Event) : PageState × Option ApiCall :=
  match e with
  | .toggleEvt image =>
      if reviewRendered s && !reviewStepDisabledProp s then
        ({ s with selectedOutlierImages :=
            toggleOutlier image s.selectedOutlierImages }, none)
      else (s, none)
  | .pageChangeEvt newPage =>
      if reviewRendered s && !reviewStepDisabledProp s then
        (handlePageChange newPage s, none)
      else (s, none)
  | .pageSizeChangeEvt newSize =>
      if reviewRendered s && !reviewStepDisabledProp s then
        (handlePageSizeChange newSize s, none)
      else (s, none)
  | .continueEvt outcome =>
      if reviewRendered s && !reviewStepDisabledProp s then
        handleContinue s outcome
      else (s, none)
  | .batchLabelChangeEvt label isCustom =>
      if batchStepRendered s && !labelStepDisabledProp s then
        (handleBatchLabelChange label isCustom s, none)
      else (s, none)
  | .batchSubmitEvt outcome =>
      if batchStepRendered s
          && !batchSubmitButtonDisabled s.batchLabel (labelStepDisabledProp s) then
        handleBatchSubmit s outcome
      else (s, none)
  | .outlierLabelChangeEvt imageId label isCustom =>
      if outlierStepRendered s && !labelStepDisabledProp s
          && s.selectedOutlierImages.hasKey imageId then
        ({ s with outlierAnnotations :=
            handleOutlierLabelChange imageId label isCustom s.outlierAnnotations },
         none)
      else (s, none)
  | .outliersSubmitEvt outcome =>
      if outlierStepRendered s
          && !outlierSubmitButtonDisabled s.outlierAnnotations
              s.selectedOutlierImages.valuesList (labelStepDisabledProp s) then
        handleOutliersSubmit s outcome
      else (s, none)
  | .outliersLoadedEvt outcome =>
      let r := loadExistingOutliers s.selectedOutlierImages
        s.outliersLoadError outcome
      ({ s with selectedOutlierImages := r.selectedOutlierImages,
                outliersLoadError := r.outliersLoadError,
                outliersLoading := r.outliersLoading }, none)
  | .metadataLoadedEvt outcome =>
      (applyMetadataResponse false outcome s, none)
  | .imagesLoadedEvt outcome =>
      if s.step == WorkflowStep.review then
        (applyImagesResponse false outcome s, none)
      else (s, none)

/-- The transition edges the spec's state machine allows (§4.5), plus
staying in place. -/
def stepEdgeOK (a b : WorkflowStep) : Prop :=
  a = b
  ∨ (a = .review ∧ b = .batchLabel)
  ∨ (a = .review ∧ b = .annotateOutliers)
  ∨ (a = .annotateOutliers ∧ b = .labelRemaining)
  ∨ (a = .batchLabel ∧ b = .done)
  ∨ (a = .labelRemaining ∧ b = .done)

instance (a b : WorkflowStep) : Decidable (stepEdgeOK a b) := by
  unfold stepEdgeOK; infer_instance

/-! ### Concrete records used by witnesses and counterexamples -/

/-- A concrete pending image. -/
def imgW : Image :=
  ⟨"img-1", "c1", "e1", "f/w.jpg", "w.jpg", AnnotationStatus.pending⟩

/-- A different record carrying the same id as `imgW`. -/
def imgI : Image :=
  ⟨"img-1", "c1", "e1", "f/i.jpg", "i.jpg", AnnotationStatus.pending⟩

/-- A second concrete pending image. -/
def imgB : Image :=
  ⟨"img-2", "c1", "e1", "f/b.jpg", "b.jpg", AnnotationStatus.pending⟩

/-- A concrete image that is already annotated. -/
def imgAnn : Image :=
  ⟨"img-3", "c1", "e1", "f/a.jpg", "a.jpg", AnnotationStatus.annotated⟩

/-- A concrete cluster without persisted outliers. -/
def cl0 : Cluster := ⟨"c1", "e1", "cluster_01", "pending", false, 0⟩

/-- A concrete paginated response. -/
def pd0 : PaginatedImagesResponse :=
  ⟨"c1", "cluster_01", [imgW, imgB], 2, 1, 20, false, false⟩

/-- A concrete Review-step state with an empty candidate selection on a
cluster without persisted outliers. -/
def baseState : PageState :=
  { clusterId := some "c1"
    cluster := some cl0
    paginatedData := some pd0
    loading := false
    error := none
    outliersLoadError := none
    outliersLoading := false
    currentPage := 1
    pageSize := 20
    step := WorkflowStep.review
    selectedOutlierImages := ⟨[]⟩
    outlierAnnotations := ⟨[]⟩
    batchLabel := ""
    batchIsCustomLabel := false
    submitting := false
    speakers := []
    speakersLoading := false }

/-- The state `baseState` with a mutating call in flight. -/
def submittingState : PageState := { baseState with submitting := true }

/-- The state `baseState` with a single candidate outlier that is already
annotated on the backend. -/
def annSelState : PageState :=
  { baseState with selectedOutlierImages := ⟨[("img-3", imgAnn)]⟩ }

/-- A concrete annotate-outliers state with one outlier and one entered
label. -/
def outlierState : PageState :=
  { baseState with
      step := WorkflowStep.annotateOutliers
      selectedOutlierImages := ⟨[("img-1", imgW)]⟩
      outlierAnnotations := ⟨[("img-1", ⟨"Ross", false⟩)]⟩ }

/-! ### Lemmas about the `JsMap` model -/

namespace JsMap

variable {α : Type}

theorem get_nil (k : String) : (⟨[]⟩ : JsMap α).get k = none := rfl

theorem get_cons (k' : String) (v' : α) (t : List (String × α)) (k : String) :
    JsMap.get ⟨(k', v') :: t⟩ k = if k' = k then some v' else JsMap.get ⟨t⟩ k := by
  by_cases h : k' = k <;> simp [get, List.find?_cons, h]

theorem set_cons (k₀ : String) (v₀ : α) (t : List (String × α))
    (k : String) (v : α) :
    JsMap.set ⟨(k₀, v₀) :: t⟩ k v =
      if k₀ = k then ⟨(k, v) :: t⟩
      else ⟨(k₀, v₀) :: (JsMap.set ⟨t⟩ k v).entries⟩ := by
  by_cases h : k₀ = k <;> simp [set, setEntries, h]

theorem del_cons (k₀ : String) (v₀ : α) (t : List (String × α)) (k : String) :
    JsMap.del ⟨(k₀, v₀) :: t⟩ k =
      if k₀ = k then JsMap.del ⟨t⟩ k
      else ⟨(k₀, v₀) :: (JsMap.del ⟨t⟩ k).entries⟩ := by
  by_cases h : k₀ = k <;> simp [del, List.filter_cons, h]

theorem get_set_self (m : JsMap α) (k : String) (v : α) :
    (m.set k v).get k = some v := by
  obtain ⟨l⟩ := m
  induction l with
  | nil => simp [set, setEntries, get_cons]
  | cons p t ih =>
      obtain ⟨k₀, v₀⟩ := p
      rw [set_cons]
      by_cases h : k₀ = k
      · simp [h, get_cons]
      · simpa [h, get_cons] using ih

theorem get_set_ne (m : JsMap α) (k k' : String) (v : α) (h : k' ≠ k) :
    (m.set k v).get k' = m.get k' := by
  obtain ⟨l⟩ := m
  induction l with
  | nil => simp [set, setEntries, get_nil, get_cons, Ne.symm h]
  | cons p t ih =>
      obtain ⟨k₀, v₀⟩ := p
      rw [set_cons]
      by_cases hk : k₀ = k
      · subst hk
        simp [get_cons, Ne.symm h]
      · by_cases hk' : k₀ = k'
        · subst hk'
          simp [h, get_cons]
        · simpa [hk, get_cons, hk'] using ih

theorem get_del_self (m : JsMap α) (k : String) : (m.del k).get k = none := by
  obtain ⟨l⟩ := m
  induction l with
  | nil => rfl
  | cons p t ih =>
      obtain ⟨k₀, v₀⟩ := p
      rw [del_cons]
      by_cases hk : k₀ = k
      · simpa [hk] using ih
      · simpa [hk, get_cons] using ih

theorem get_del_ne (m : JsMap α) (k k' : String) (h : k' ≠ k) :
    (m.del k).get k' = m.get k' := by
  obtain ⟨l⟩ := m
  induction l with
  | nil => rfl
  | cons p t ih =>
      obtain ⟨k₀, v₀⟩ := p
      rw [del_cons]
      by_cases hk : k₀ = k
      · subst hk
        simpa [get_cons, Ne.symm h] using ih
      · by_cases hk' : k₀ = k'
        · subst hk'
          simp [h, get_cons]
        · simpa [hk, get_cons, hk'] using ih

theorem hasKey_iff_get (m : JsMap α) (k : String) :
    m.hasKey k = true ↔ (m.get k).isSome := by
  simp [hasKey]

theorem hasKey_iff_mem_keysList (m : JsMap α) (k : String) :
    m.hasKey k = true ↔ k ∈ m.keysList := by
  obtain ⟨l⟩ := m
  induction l with
  | nil => simp [hasKey, get_nil, keysList]
  | cons p t ih =>
      obtain ⟨k₀, v₀⟩ := p
      by_cases hk : k₀ = k
      · simp [hasKey, get_cons, hk, keysList]
      · have ht := ih
        simp only [hasKey, keysList, List.map_cons, List.mem_cons] at ht ⊢
        rw [get_cons]
        simp [hk, Ne.symm hk, ht]

theorem get_mem_valuesList (m : JsMap α) (k : String) (v : α)
    (h : m.get k = some v) : v ∈ m.valuesList := by
  obtain ⟨l⟩ := m
  induction l with
  | nil => simp [get_nil] at h
  | cons p t ih =>
      obtain ⟨k₀, v₀⟩ := p
      rw [get_cons] at h
      by_cases hk : k₀ = k
      · simp [hk] at h
        simp [valuesList, h]
      · simp [hk] at h
        exact List.mem_cons_of_mem _ (by simpa [valuesList] using ih h)

theorem size_eq_keysList_length (m : JsMap α) :
    m.size = m.keysList.length := by
  simp [size, keysList]

theorem mem_valuesList_exists_key (m : JsMap α) (v : α)
    (h : v ∈ m.valuesList) : ∃ k, (k, v) ∈ m.entries := by
  simp only [valuesList, List.mem_map] at h
  obtain ⟨⟨k, v'⟩, hm, hv⟩ := h
  simp only at hv
  subst hv
  exact ⟨k, hm⟩

/-- With pairwise-distinct keys, a key's lookup returns the value of the
unique entry carrying it. -/
theorem get_of_mem_wf (m : JsMap α) (k : String) (v : α)
    (hwf : m.wf) (h : (k, v) ∈ m.entries) : m.get k = some v := by
  obtain ⟨l⟩ := m
  induction l with
  | nil => simp at h
  | cons p t ih =>
      obtain ⟨k₀, v₀⟩ := p
      have hnd : k₀ ∉ t.map Prod.fst ∧ (t.map Prod.fst).Nodup := by
        simpa [wf, keysList] using hwf
      rcases List.mem_cons.mp h with h1 | h2
      · injection h1 with hk hv
        rw [get_cons]
        simp [hk, hv]
      · have hk₀ : k₀ ≠ k := by
          intro he
          subst he
          exact hnd.1 (List.mem_map.mpr ⟨(k₀, v), h2, rfl⟩)
        rw [get_cons]
        simp only [hk₀, if_false]
        exact ih (by simpa [wf, keysList] using hnd.2) h2

end JsMap

/-! ### Lemmas about trimming -/

theorem trimChars_eq_rdropWhile (l : List Char) :
    trimChars l =
      List.rdropWhile Char.isWhitespace (List.dropWhile Char.isWhitespace l) :=
  rfl

theorem dropWhile_trimChars (l : List Char) :
    List.dropWhile Char.isWhitespace (trimChars l) = trimChars l := by
  rw [trimChars_eq_rdropWhile, List.dropWhile_eq_self_iff]
  intro hl
  obtain ⟨t, ht⟩ :=
    List.rdropWhile_prefix Char.isWhitespace
      (List.dropWhile Char.isWhitespace l)
  have hlen : 0 < (List.dropWhile Char.isWhitespace l).length := by
    rw [← ht, List.length_append]
    omega
  have hzero :
      (List.dropWhile Char.isWhitespace l).get ⟨0, hlen⟩ =
        (List.rdropWhile Char.isWhitespace
          (List.dropWhile Char.isWhitespace l)).get ⟨0, hl⟩ := by
    have h1 := List.get_of_eq ht.symm ⟨0, hlen⟩
    rw [h1]
    exact List.get_append 0 hl
  rw [← hzero]
  exact List.dropWhile_get_zero_not Char.isWhitespace l hlen

theorem trimChars_idem (l : List Char) :
    trimChars (trimChars l) = trimChars l := by
  show ((List.dropWhile Char.isWhitespace
      (trimChars l)).reverse.dropWhile Char.isWhitespace).reverse = trimChars l
  rw [dropWhile_trimChars]
  show (((((List.dropWhile Char.isWhitespace
      l).reverse.dropWhile Char.isWhitespace).reverse).reverse.dropWhile
        Char.isWhitespace)).reverse = trimChars l
  rw [List.reverse_reverse, List.dropWhile_idempotent]
  rfl

theorem jsTrim_idem (s : String) : jsTrim (jsTrim s) = jsTrim s :=
  congrArg String.mk (trimChars_idem s.data)

/-! ### Lemmas about the Resume Loader merge -/

theorem set_append_of_not_hasKey {α : Type} (m : JsMap α) (k : String) (v : α)
    (h : m.hasKey k = false) : m.set k v = ⟨m.entries ++ [(k, v)]⟩ := by
  obtain ⟨l⟩ := m
  induction l with
  | nil => rfl
  | cons p t ih =>
      obtain ⟨k₀, v₀⟩ := p
      have hne : k₀ ≠ k := by
        intro he
        rw [JsMap.hasKey, JsMap.get_cons, if_pos he] at h
        simp at h
      have ht : (JsMap.mk t).hasKey k = false := by
        rw [JsMap.hasKey, JsMap.get_cons, if_neg hne] at h
        exact h
      rw [JsMap.set_cons, if_neg hne]
      have := ih ht
      simp only [JsMap.mk.injEq] at this ⊢
      simp [this]

theorem foldl_set_fresh (l : List Image) : ∀ (acc : JsMap Image),
    (l.map Image.id).Nodup →
    (∀ img ∈ l, acc.hasKey img.id = false) →
    (l.foldl (fun m img => m.set img.id img) acc).entries =
      acc.entries ++ l.map (fun img => (img.id, img)) := by
  induction l with
  | nil => intro acc _ _; simp
  | cons img rest ih =>
      intro acc hnd hfresh
      rw [List.map_cons, List.nodup_cons] at hnd
      have hfreshHead : acc.hasKey img.id = false :=
        hfresh img (List.mem_cons_self _ _)
      have hset := set_append_of_not_hasKey acc img.id img hfreshHead
      have hnd' : (rest.map Image.id).Nodup := hnd.2
      have hfresh' : ∀ i ∈ rest, (acc.set img.id img).hasKey i.id = false := by
        intro i hi
        have hne : i.id ≠ img.id := by
          intro he
          exact hnd.1 (List.mem_map.mpr ⟨i, hi, he⟩)
        rw [JsMap.hasKey, JsMap.get_set_ne _ _ _ _ hne]
        exact hfresh i (List.mem_cons_of_mem _ hi)
      calc ((img :: rest).foldl (fun m i => m.set i.id i) acc).entries
          = (rest.foldl (fun m i => m.set i.id i) (acc.set img.id img)).entries := by
            simp [List.foldl_cons]
        _ = (acc.set img.id img).entries ++ rest.map (fun i => (i.id, i)) :=
            ih (acc.set img.id img) hnd' hfresh'
        _ = acc.entries ++ (img :: rest).map (fun i => (i.id, i)) := by
            rw [hset]
            simp

theorem backendOutliersMap_entries (outliers : List Image)
    (h : (outliers.map Image.id).Nodup) :
    (backendOutliersMap outliers).entries =
      outliers.map (fun img => (img.id, img)) := by
  have := foldl_set_fresh outliers JsMap.empty h (fun img _ => rfl)
  simpa [backendOutliersMap, JsMap.empty] using this

theorem merge_fold (l : List (String × Image)) : ∀ (acc : JsMap Image),
    (l.map Prod.fst).Nodup →
    (l.foldl
      (fun merged p => if merged.hasKey p.1 then merged else merged.set p.1 p.2)
      acc).entries =
      acc.entries ++ l.filter (fun p => !acc.hasKey p.1) := by
  induction l with
  | nil => intro acc _; simp
  | cons p rest ih =>
      intro acc hnd
      rw [List.map_cons, List.nodup_cons] at hnd
      have hnd' : (rest.map Prod.fst).Nodup := hnd.2
      have hhead : p.1 ∉ rest.map Prod.fst := hnd.1
      by_cases hk : acc.hasKey p.1 = true
      · have := ih acc hnd'
        simp only [List.foldl_cons, if_pos hk]
        rw [this]
        simp [List.filter_cons, hk]
      · have hkf : acc.hasKey p.1 = false := by
          simpa using hk
        have hset := set_append_of_not_hasKey acc p.1 p.2 hkf
        have hcong : rest.filter (fun q => !(acc.set p.1 p.2).hasKey q.1) =
            rest.filter (fun q => !acc.hasKey q.1) := by
          apply List.filter_congr
          intro q hq
          have hne : q.1 ≠ p.1 := by
            intro he
            exact hhead (List.mem_map.mpr ⟨q, hq, he⟩)
          rw [JsMap.hasKey, JsMap.get_set_ne _ _ _ _ hne]
          rfl
        have := ih (acc.set p.1 p.2) hnd'
        simp only [List.foldl_cons, if_neg hk]
        rw [this, hcong, hset]
        simp [List.filter_cons, hkf]

theorem mergeOutliers_entries (prev : JsMap Image) (F : List Image)
    (h : (F.map Image.id).Nodup) :
    (mergeOutliers prev F).entries =
      prev.entries ++
        (F.filter (fun img => !prev.hasKey img.id)).map
          (fun img => (img.id, img)) := by
  have hb := backendOutliersMap_entries F h
  have hkeys : ((backendOutliersMap F).entries.map Prod.fst).Nodup := by
    rw [hb, List.map_map]
    simpa [Function.comp] using h
  have hm := merge_fold (backendOutliersMap F).entries prev hkeys
  rw [mergeOutliers, hm, hb]
  congr 1
  have := (List.filter_map (fun img : Image => (img.id, img)) F
    (p := fun p => !prev.hasKey p.1))
  simpa [Function.comp] using this

theorem find?_eq_none_of_not_hasKey {α : Type} (m : JsMap α) (k : String)
    (h : m.hasKey k = false) :
    m.entries.find? (fun p => p.1 == k) = none := by
  rw [JsMap.hasKey] at h
  cases hf : m.entries.find? (fun p => p.1 == k) with
  | none => rfl
  | some p =>
      rw [JsMap.get, hf] at h
      simp at h

theorem get_append_left {α : Type} (m : JsMap α) (rest : List (String × α))
    (k : String) (h : m.hasKey k = true) :
    JsMap.get ⟨m.entries ++ rest⟩ k = m.get k := by
  rw [JsMap.hasKey, JsMap.get] at h
  rw [JsMap.get, JsMap.get, List.find?_append]
  cases hf : m.entries.find? (fun p => p.1 == k) with
  | none => rw [hf] at h; simp at h
  | some p => simp [Option.or]

theorem get_append_right {α : Type} (m : JsMap α) (rest : List (String × α))
    (k : String) (h : m.hasKey k = false) :
    JsMap.get ⟨m.entries ++ rest⟩ k = JsMap.get ⟨rest⟩ k := by
  have hf := find?_eq_none_of_not_hasKey m k h
  rw [JsMap.get, List.find?_append, hf]
  rfl

theorem hasKey_append {α : Type} (l1 l2 : List (String × α)) (k : String) :
    JsMap.hasKey ⟨l1 ++ l2⟩ k =
      (JsMap.hasKey ⟨l1⟩ k || JsMap.hasKey ⟨l2⟩ k) := by
  rw [JsMap.hasKey, JsMap.get, List.find?_append]
  cases hf : l1.find? (fun p => p.1 == k) with
  | none =>
      simp [JsMap.hasKey, JsMap.get, hf, Option.or]
  | some p =>
      simp [JsMap.hasKey, JsMap.get, hf, Option.or]

/-- Looking up an image's id in the id-keyed pairing of a list with
pairwise-distinct ids finds that image. -/
theorem find?_pairing (F : List Image) (img : Image)
    (hnd : (F.map Image.id).Nodup) (hmem : img ∈ F) :
    (F.map (fun i => (i.id, i))).find? (fun p => p.1 == img.id) =
      some (img.id, img) := by
  induction F with
  | nil => simp at hmem
  | cons i rest ih =>
      rw [List.map_cons, List.nodup_cons] at hnd
      rcases List.mem_cons.mp hmem with h1 | h2
      · subst h1
        simp [List.find?_cons]
      · have hne : i.id ≠ img.id := by
          intro he
          exact hnd.1 (he ▸ List.mem_map.mpr ⟨img, h2, rfl⟩)
        rw [List.map_cons, List.find?_cons]
        simp only [hne, bne_iff_ne, ne_eq]
        have : ((i.id, i).1 == img.id) = false := by
          simpa using hne
        rw [this]
        exact ih hnd.2 h2

/-! ## Claim theorems -/

/-- C10 counterexample: with the selection storing, under the id of `i`,
a record different from `i` (possible because distinct fetches of the
same image produce distinct records), toggling `i` twice does not yield
a map equal to the original: even the binding under that id changes. -/
theorem toggle_double_not_identity :
    toggleOutlier imgI (toggleOutlier imgI ⟨[("img-1", imgW)]⟩) ≠
        (⟨[("img-1", imgW)]⟩ : JsMap Image)
      ∧ (toggleOutlier imgI
          (toggleOutlier imgI ⟨[("img-1", imgW)]⟩)).get "img-1" ≠
        (⟨[("img-1", imgW)]⟩ : JsMap Image).get "img-1" := by
  constructor <;> decide

/-- C10 (amended): provided the record stored under `img.id`, if any, is
`img` itself, applying `toggleOutlier img` twice yields a map with
exactly the bindings of the original; a single application adds the
binding `img.id ↦ img` when the id is absent and removes it when
present, leaving every other binding unchanged. -/
theorem toggleOutlier_toggle_props (m : JsMap Image) (img : Image)
    (hstored : ∀ v, m.get img.id = some v → v = img) :
    (∀ k, (toggleOutlier img (toggleOutlier img m)).get k = m.get k)
    ∧ ((toggleOutlier img m).get img.id =
        if m.hasKey img.id then none else some img)
    ∧ (∀ k, k ≠ img.id → (toggleOutlier img m).get k = m.get k) := by
  refine ⟨?_, ?_, ?_⟩
  · intro k
    by_cases hk : m.hasKey img.id = true
    · have h1 : toggleOutlier img m = m.del img.id := by
        rw [toggleOutlier, if_pos hk]
      have h2 : (m.del img.id).hasKey img.id = false := by
        rw [JsMap.hasKey, JsMap.get_del_self]
        rfl
      have h3 : toggleOutlier img (m.del img.id) =
          (m.del img.id).set img.id img := by
        rw [toggleOutlier, if_neg (by simp [h2])]
      rw [h1, h3]
      by_cases hki : k = img.id
      · subst hki
        rw [JsMap.get_set_self]
        obtain ⟨v, hv⟩ := Option.isSome_iff_exists.mp (by
          rw [JsMap.hasKey] at hk
          exact hk)
        rw [hv, hstored v hv]
      · rw [JsMap.get_set_ne _ _ _ _ hki, JsMap.get_del_ne _ _ _ hki]
    · have hk' : m.hasKey img.id = false := by simpa using hk
      have h1 : toggleOutlier img m = m.set img.id img := by
        rw [toggleOutlier, if_neg (by simp [hk'])]
      have h2 : (m.set img.id img).hasKey img.id = true := by
        rw [JsMap.hasKey, JsMap.get_set_self]
        rfl
      have h3 : toggleOutlier img (m.set img.id img) =
          (m.set img.id img).del img.id := by
        rw [toggleOutlier, if_pos h2]
      rw [h1, h3]
      by_cases hki : k = img.id
      · subst hki
        rw [JsMap.get_del_self]
        rw [JsMap.hasKey] at hk'
        exact (Option.not_isSome_iff_eq_none.mp (by simp [hk'])).symm
      · rw [JsMap.get_del_ne _ _ _ hki, JsMap.get_set_ne _ _ _ _ hki]
  · by_cases hk : m.hasKey img.id = true
    · rw [toggleOutlier, if_pos hk, if_pos hk, JsMap.get_del_self]
    · have hk' : m.hasKey img.id = false := by simpa using hk
      rw [toggleOutlier, hk', if_neg (by simp), if_neg (by simp),
        JsMap.get_set_self]
  · intro k hki
    by_cases hk : m.hasKey img.id = true
    · rw [toggleOutlier, if_pos hk, JsMap.get_del_ne _ _ _ hki]
    · rw [toggleOutlier, if_neg hk, JsMap.get_set_ne _ _ _ _ hki]

/-- C10 witness: the amended involution facts hold at a concrete
selection storing `imgB` and at the image `imgW`. -/
theorem toggleOutlier_toggle_props_witness :
    (∀ v, (⟨[("img-2", imgB)]⟩ : JsMap Image).get imgW.id = some v → v = imgW)
    ∧ ((∀ k,
          (toggleOutlier imgW
            (toggleOutlier imgW ⟨[("img-2", imgB)]⟩)).get k =
          (⟨[("img-2", imgB)]⟩ : JsMap Image).get k)
        ∧ ((toggleOutlier imgW ⟨[("img-2", imgB)]⟩).get imgW.id =
            if (⟨[("img-2", imgB)]⟩ : JsMap Image).hasKey imgW.id then none
            else some imgW)
        ∧ (∀ k, k ≠ imgW.id →
            (toggleOutlier imgW ⟨[("img-2", imgB)]⟩).get k =
            (⟨[("img-2", imgB)]⟩ : JsMap Image).get k)) :=
  ⟨by decide, toggleOutlier_toggle_props ⟨[("img-2", imgB)]⟩ imgW (by decide)⟩

/-- C2: the Resume Loader's merge is an additive union keyed by image
id: every locally selected entry of `prev` is kept unchanged, every
fetched outlier whose id is not already a key of `prev` is added under
its id, and the keys of the result are exactly the keys of `prev` plus
the fetched ids — no local selection is overwritten or removed. -/
theorem resume_merge_additive_union (prev : JsMap Image)
    (prevErr : Option String) (F : List Image)
    (hnd : (F.map Image.id).Nodup) :
    (∀ k, prev.hasKey k = true →
      ((loadExistingOutliers prev prevErr
        (FetchOutcome.ok F)).selectedOutlierImages).get k = prev.get k)
    ∧ (∀ img ∈ F, prev.hasKey img.id = false →
      ((loadExistingOutliers prev prevErr
        (FetchOutcome.ok F)).selectedOutlierImages).get img.id = some img)
    ∧ (∀ k, ((loadExistingOutliers prev prevErr
        (FetchOutcome.ok F)).selectedOutlierImages).hasKey k = true ↔
        (prev.hasKey k = true ∨ k ∈ F.map Image.id)) := by
  by_cases hF : F.length > 0
  · have hsel : (loadExistingOutliers prev prevErr
        (FetchOutcome.ok F)).selectedOutlierImages = mergeOutliers prev F := by
      simp [loadExistingOutliers, hF]
    have hent := mergeOutliers_entries prev F hnd
    have hme : mergeOutliers prev F =
        ⟨prev.entries ++
          (F.filter (fun img => !prev.hasKey img.id)).map
            (fun img => (img.id, img))⟩ := congrArg JsMap.mk hent
    have hnd' : ((F.filter (fun img => !prev.hasKey img.id)).map
        Image.id).Nodup :=
      List.Nodup.sublist (List.Sublist.map Image.id (List.filter_sublist F)) hnd
    refine ⟨?_, ?_, ?_⟩
    · intro k hk
      rw [hsel, hme]
      exact get_append_left prev _ k hk
    · intro img hmem h
      rw [hsel, hme]
      rw [get_append_right prev _ img.id h]
      have hmem' : img ∈ F.filter (fun i => !prev.hasKey i.id) :=
        List.mem_filter.mpr ⟨hmem, by simp [h]⟩
      have hfind := find?_pairing (F.filter (fun i => !prev.hasKey i.id))
        img hnd' hmem'
      rw [JsMap.get]
      simp only
      rw [hfind]
      rfl
    · intro k
      rw [hsel, hme]
      rw [show (⟨prev.entries ++
          (F.filter (fun img => !prev.hasKey img.id)).map
            (fun img => (img.id, img))⟩ : JsMap Image).hasKey k =
          (prev.hasKey k
            || JsMap.hasKey ⟨(F.filter (fun img => !prev.hasKey img.id)).map
                (fun img => (img.id, img))⟩ k) from hasKey_append _ _ k]
      have hkeys : JsMap.hasKey
          (⟨(F.filter (fun img => !prev.hasKey img.id)).map
            (fun img => (img.id, img))⟩ : JsMap Image) k = true ↔
          k ∈ (F.filter (fun img => !prev.hasKey img.id)).map Image.id := by
        rw [JsMap.hasKey_iff_mem_keysList]
        rw [JsMap.keysList]
        simp only [List.map_map]
        rfl
      by_cases hp : prev.hasKey k = true
      · simp [hp]
      · have hp' : prev.hasKey k = false := by simpa using hp
        simp only [hp', Bool.false_or]
        rw [hkeys]
        constructor
        · intro hmem
          rcases List.mem_map.mp hmem with ⟨i, hi, hik⟩
          exact Or.inr (List.mem_map.mpr ⟨i, (List.mem_filter.mp hi).1, hik⟩)
        · intro hmem
          rcases hmem with hmem | hmem
          · simp [hp'] at hmem
          · rcases List.mem_map.mp hmem with ⟨i, hi, hik⟩
            refine List.mem_map.mpr ⟨i, List.mem_filter.mpr ⟨hi, ?_⟩, hik⟩
            rw [hik, hp']
            rfl
  · have hF0 : F = [] := by
      cases F with
      | nil => rfl
      | cons a t => simp at hF
    subst hF0
    refine ⟨fun k _ => ?_, by simp, fun k => ?_⟩
    · simp [loadExistingOutliers]
    · simp [loadExistingOutliers]

/-- C2 witness: the merge facts hold for a concrete one-entry local
selection and a concrete two-image fetched list. -/
theorem resume_merge_additive_union_witness :
    ([imgW, imgB].map Image.id).Nodup
    ∧ ((∀ k, (⟨[("img-9", imgI)]⟩ : JsMap Image).hasKey k = true →
        ((loadExistingOutliers ⟨[("img-9", imgI)]⟩ none
          (FetchOutcome.ok [imgW, imgB])).selectedOutlierImages).get k =
          (⟨[("img-9", imgI)]⟩ : JsMap Image).get k)
      ∧ (∀ img ∈ [imgW, imgB],
          (⟨[("img-9", imgI)]⟩ : JsMap Image).hasKey img.id = false →
          ((loadExistingOutliers ⟨[("img-9", imgI)]⟩ none
            (FetchOutcome.ok [imgW, imgB])).selectedOutlierImages).get img.id =
            some img)
      ∧ (∀ k, ((loadExistingOutliers ⟨[("img-9", imgI)]⟩ none
          (FetchOutcome.ok [imgW, imgB])).selectedOutlierImages).hasKey k = true ↔
          ((⟨[("img-9", imgI)]⟩ : JsMap Image).hasKey k = true
            ∨ k ∈ [imgW, imgB].map Image.id))) :=
  ⟨by decide,
   resume_merge_additive_union ⟨[("img-9", imgI)]⟩ none [imgW, imgB] (by decide)⟩

/-- C8: a response whose effect instance was cancelled (its cleanup ran
because the page, page size or cluster id changed, or the component
unmounted) updates none of `paginatedData`, `loading`, `error` and
`cluster`; consequently, when a superseded response arrives after the
last issued request's response, the state is exactly the one produced by
the accepted response. -/
theorem superseded_response_discarded :
    (∀ (outcome : FetchOutcome PaginatedImagesResponse) (s : PageState),
      applyImagesResponse true outcome s = s)
    ∧ (∀ (outcome : FetchOutcome Cluster) (s : PageState),
      applyMetadataResponse true outcome s = s)
    ∧ (∀ (stale fresh : FetchOutcome PaginatedImagesResponse) (s : PageState),
      applyImagesResponse true stale (applyImagesResponse false fresh s) =
        applyImagesResponse false fresh s)
    ∧ (∀ (stale fresh : FetchOutcome Cluster) (s : PageState),
      applyMetadataResponse true stale (applyMetadataResponse false fresh s) =
        applyMetadataResponse false fresh s) := by
  refine ⟨?_, ?_, ?_, ?_⟩
  · intro o s
    cases o <;>
      simp [applyImagesResponse, applyImagesSuccess, applyImagesFailure]
  · intro o s
    cases o <;>
      simp [applyMetadataResponse, applyMetadataSuccess, applyMetadataFailure]
  · intro stale fresh s
    cases stale <;>
      simp [applyImagesResponse, applyImagesSuccess, applyImagesFailure]
  · intro stale fresh s
    cases stale <;>
      simp [applyMetadataResponse, applyMetadataSuccess, applyMetadataFailure]

/-- C7: whenever a mutating call is in flight (`submitting` is true),
every interactive control rendered by the Review step — the page-size
selector, each image toggle button, both pagination buttons and the
Continue button — is disabled. -/
theorem review_controls_disabled_while_submitting (s : PageState)
    (images : List Image) (hasNext hasPrev : Bool)
    (hsub : s.submitting = true) :
    (renderReviewStep images hasNext hasPrev
        (reviewStepDisabledProp s)).pageSizeSelectorDisabled = true
    ∧ (∀ e ∈ (renderReviewStep images hasNext hasPrev
        (reviewStepDisabledProp s)).imageToggleDisabled, e.2 = true)
    ∧ (renderReviewStep images hasNext hasPrev
        (reviewStepDisabledProp s)).prevDisabled = true
    ∧ (renderReviewStep images hasNext hasPrev
        (reviewStepDisabledProp s)).nextDisabled = true
    ∧ (renderReviewStep images hasNext hasPrev
        (reviewStepDisabledProp s)).continueDisabled = true := by
  have hd : reviewStepDisabledProp s = true := by
    simp [reviewStepDisabledProp, hsub]
  refine ⟨?_, ?_, ?_, ?_, ?_⟩ <;>
    simp [renderReviewStep, hd]

/-- C6: a 404 on the resume fetch is treated as success with an empty
merge and no error write; every other axios failure records the blocking
`outliersLoadError` and leaves the selection untouched; and while the
error is set or the load is in progress, every Review-step control,
Continue included, is disabled. -/
theorem resume_load_error_handling :
    (∀ (prev : JsMap Image) (prevErr : Option String) (d : Option String),
      loadExistingOutliers prev prevErr (FetchOutcome.httpError 404 d) =
        ⟨prev, prevErr, false⟩)
    ∧ (∀ (prev : JsMap Image) (prevErr : Option String) (status : Nat)
        (d : Option String), status ≠ 404 →
        loadExistingOutliers prev prevErr (FetchOutcome.httpError status d) =
          ⟨prev,
            some "Failed to load existing outliers. Cannot continue safely.",
            false⟩)
    ∧ (∀ (prev : JsMap Image) (prevErr : Option String),
        loadExistingOutliers prev prevErr FetchOutcome.networkError =
          ⟨prev,
            some "Failed to load existing outliers. Cannot continue safely.",
            false⟩)
    ∧ (∀ (s : PageState) (images : List Image) (hasNext hasPrev : Bool),
        s.outliersLoadError ≠ none ∨ s.outliersLoading = true →
        (renderReviewStep images hasNext hasPrev
            (reviewStepDisabledProp s)).continueDisabled = true
        ∧ (renderReviewStep images hasNext hasPrev
            (reviewStepDisabledProp s)).pageSizeSelectorDisabled = true
        ∧ (∀ e ∈ (renderReviewStep images hasNext hasPrev
            (reviewStepDisabledProp s)).imageToggleDisabled, e.2 = true)
        ∧ (renderReviewStep images hasNext hasPrev
            (reviewStepDisabledProp s)).prevDisabled = true
        ∧ (renderReviewStep images hasNext hasPrev
            (reviewStepDisabledProp s)).nextDisabled = true) := by
  refine ⟨?_, ?_, ?_, ?_⟩
  · intro prev prevErr d
    simp [loadExistingOutliers]
  · intro prev prevErr status d h
    simp [loadExistingOutliers, h]
  · intro prev prevErr
    simp [loadExistingOutliers]
  · intro s images hasNext hasPrev h
    have hd : reviewStepDisabledProp s = true := by
      rcases h with h | h
      · have : s.outliersLoadError.isSome = true := by
          cases he : s.outliersLoadError with
          | none => exact absurd he h
          | some v => rfl
        simp [reviewStepDisabledProp, this]
      · simp [reviewStepDisabledProp, h]
    refine ⟨?_, ?_, ?_, ?_, ?_⟩ <;> simp [renderReviewStep, hd]

/-- C6 witness: a non-404 failure at a concrete state records the
blocking error, and a state with that error set has all Review-step
controls disabled. -/
theorem resume_load_error_handling_witness :
    (loadExistingOutliers ⟨[]⟩ none (FetchOutcome.httpError 500 none) =
      ⟨⟨[]⟩,
        some "Failed to load existing outliers. Cannot continue safely.",
        false⟩)
    ∧ (loadExistingOutliers ⟨[]⟩ none (FetchOutcome.httpError 404 none) =
      ⟨⟨[]⟩, none, false⟩) := by
  have h := resume_load_error_handling
  exact ⟨h.2.1 ⟨[]⟩ none 500 none (by decide), h.1 ⟨[]⟩ none none⟩

/-- C7 witness: at a concrete submitting state every rendered control of
the Review step is disabled. -/
theorem review_controls_disabled_witness :
    ((submittingState.submitting = true)
    ∧ ((renderReviewStep [imgW, imgB] true false
          (reviewStepDisabledProp submittingState)).pageSizeSelectorDisabled = true
      ∧ (∀ e ∈ (renderReviewStep [imgW, imgB] true false
          (reviewStepDisabledProp submittingState)).imageToggleDisabled,
            e.2 = true)
      ∧ (renderReviewStep [imgW, imgB] true false
          (reviewStepDisabledProp submittingState)).prevDisabled = true
      ∧ (renderReviewStep [imgW, imgB] true false
          (reviewStepDisabledProp submittingState)).nextDisabled = true
      ∧ (renderReviewStep [imgW, imgB] true false
          (reviewStepDisabledProp submittingState)).continueDisabled = true)) :=
  ⟨rfl, review_controls_disabled_while_submitting submittingState
    [imgW, imgB] true false rfl⟩

/-- C1 counterexample: at a concrete Review confirmation with an empty
candidate set on a cluster whose `has_outliers` flag is false, the
controller issues no `mark_outliers` call at all and moves directly to
batch labelling — the claimed unconditional synchronization does not
happen. -/
theorem handleContinue_skips_sync_when_no_outliers :
    (handleContinue baseState ApiOutcome.ok).2 = none
    ∧ (handleContinue baseState ApiOutcome.ok).1.step =
        WorkflowStep.batchLabel := by
  constructor <;> rfl

/-- C1 (amended): on a Review confirmation the controller calls
`mark_outliers` with the complete candidate id list exactly when the
cluster has persisted outliers or the candidate set is non-empty; in
particular it calls with the empty list when the candidate set is empty
but persisted outliers exist, and when neither holds it issues no call
and goes directly to batch labelling. -/
theorem handleContinue_sync_iff_needed (s : PageState) (outcome : ApiOutcome)
    (cid : String) (hcid : s.clusterId = some cid) :
    ((handleContinue s outcome).2 =
        some (ApiCall.markOutliersReq cid s.selectedOutlierImages.keysList) ↔
      needsOutlierSync s = true)
    ∧ (needsOutlierSync s = false →
        (handleContinue s outcome).1.step = WorkflowStep.batchLabel
        ∧ (handleContinue s outcome).2 = none)
    ∧ (s.selectedOutlierImages.size = 0 → needsOutlierSync s = true →
        (handleContinue s outcome).2 =
          some (ApiCall.markOutliersReq cid [])) := by
  have hkeys : s.selectedOutlierImages.size = 0 →
      s.selectedOutlierImages.keysList = [] := by
    intro h
    rw [JsMap.keysList, List.length_eq_zero.mp h]
    rfl
  refine ⟨⟨?_, ?_⟩, ?_, ?_⟩
  · intro hcall
    by_contra hn
    have hn' : needsOutlierSync s = false := by simpa using hn
    rw [handleContinue, hcid] at hcall
    simp [hn'] at hcall
  · intro hn
    rw [handleContinue, hcid]
    cases outcome <;> simp [hn]
  · intro hn
    rw [handleContinue, hcid]
    cases outcome <;> simp [hn]
  · intro hz hn
    rw [handleContinue, hcid]
    cases outcome <;> simp [hn, hkeys hz]

/-- C1 witness: with an empty candidate set on a cluster whose
`has_outliers` flag is true, the sync runs and sends the empty list. -/
theorem handleContinue_sync_iff_needed_witness :
    (({ baseState with
        cluster := some { cl0 with has_outliers := true } } :
          PageState).clusterId = some "c1")
    ∧ (((handleContinue { baseState with
          cluster := some { cl0 with has_outliers := true } }
            ApiOutcome.ok).2 =
        some (ApiCall.markOutliersReq "c1"
          ({ baseState with
              cluster := some { cl0 with has_outliers := true } } :
            PageState).selectedOutlierImages.keysList) ↔
      needsOutlierSync { baseState with
        cluster := some { cl0 with has_outliers := true } } = true)
      ∧ (needsOutlierSync { baseState with
            cluster := some { cl0 with has_outliers := true } } = false →
          (handleContinue { baseState with
            cluster := some { cl0 with has_outliers := true } }
              ApiOutcome.ok).1.step = WorkflowStep.batchLabel
          ∧ (handleContinue { baseState with
              cluster := some { cl0 with has_outliers := true } }
                ApiOutcome.ok).2 = none)
      ∧ (({ baseState with
            cluster := some { cl0 with has_outliers := true } } :
              PageState).selectedOutlierImages.size = 0 →
          needsOutlierSync { baseState with
            cluster := some { cl0 with has_outliers := true } } = true →
          (handleContinue { baseState with
            cluster := some { cl0 with has_outliers := true } }
              ApiOutcome.ok).2 =
            some (ApiCall.markOutliersReq "c1" []))) :=
  ⟨rfl, handleContinue_sync_iff_needed
    { baseState with cluster := some { cl0 with has_outliers := true } }
    ApiOutcome.ok "c1" rfl⟩

/-- C9: when the entered batch label trims to the empty string, the
submit button is disabled and the handler returns without issuing any
request; whenever an annotate-batch request is issued, its `person_name`
is the trimmed entered label, which is non-empty, so the spec-modelled
empty-label `ValidationError` branch of the backend never fires on it. -/
theorem batch_submit_trimmed_nonempty (s : PageState) (outcome : ApiOutcome) :
    (jsTrim s.batchLabel = "" →
      (∀ d, batchSubmitButtonDisabled s.batchLabel d = true)
      ∧ handleBatchSubmit s outcome = (s, none))
    ∧ (∀ cid req, (handleBatchSubmit s outcome).2 =
        some (ApiCall.annotateBatchReq cid req) →
        req.person_name = jsTrim s.batchLabel
        ∧ jsTrim s.batchLabel ≠ ""
        ∧ annotateBatchRejectsLabel req = false) := by
  constructor
  · intro ht
    constructor
    · intro d
      simp [batchSubmitButtonDisabled, ht]
    · rw [handleBatchSubmit]
      cases hc : s.clusterId with
      | none => rfl
      | some cid => simp [ht]
  · intro cid req hcall
    rw [handleBatchSubmit] at hcall
    cases hc : s.clusterId with
    | none => rw [hc] at hcall; simp at hcall
    | some cid' =>
        rw [hc] at hcall
        by_cases ht : jsTrim s.batchLabel = ""
        · simp [ht] at hcall
        · have hreq : req = ⟨jsTrim s.batchLabel, s.batchIsCustomLabel⟩ := by
            cases outcome <;> simp [ht] at hcall <;> exact hcall.2.symm
          refine ⟨by rw [hreq], ht, ?_⟩
          rw [hreq, annotateBatchRejectsLabel]
          simp only [jsTrim_idem]
          simpa using ht

/-- C9 witness: with the concrete entered label `"  Ross "`, the issued
request carries the trimmed non-empty name and passes the spec-modelled
validation. -/
theorem batch_submit_trimmed_nonempty_witness :
    ((jsTrim ("  Ross " : String) = "" →
      (∀ d, batchSubmitButtonDisabled ("  Ross " : String) d = true)
      ∧ handleBatchSubmit { baseState with batchLabel := "  Ross " }
          ApiOutcome.ok =
        ({ baseState with batchLabel := "  Ross " }, none))
    ∧ (∀ cid req,
        (handleBatchSubmit { baseState with batchLabel := "  Ross " }
          ApiOutcome.ok).2 = some (ApiCall.annotateBatchReq cid req) →
        req.person_name =
          jsTrim ({ baseState with batchLabel := "  Ross " } :
            PageState).batchLabel
        ∧ jsTrim ({ baseState with batchLabel := "  Ross " } :
            PageState).batchLabel ≠ ""
        ∧ annotateBatchRejectsLabel req = false))
    ∧ (handleBatchSubmit { baseState with batchLabel := "  Ross " }
        ApiOutcome.ok).2 =
      some (ApiCall.annotateBatchReq "c1" ⟨"Ross", false⟩) :=
  ⟨batch_submit_trimmed_nonempty
    { baseState with batchLabel := "  Ross " } ApiOutcome.ok, by decide⟩

/-- C3 counterexample: with the candidate selection holding a single
already-annotated image, the spec-modelled `mark_outliers` succeeds with
a resulting outlier count of zero, yet the controller transitions to
`annotate-outliers`, not `batch-label`. -/
theorem decision_branch_ignores_resulting_count :
    mark_outliers [imgAnn] "c1"
        (annSelState.selectedOutlierImages.keysList) =
      Except.ok ([imgAnn], 0)
    ∧ (handleContinue annSelState ApiOutcome.ok).1.step =
        WorkflowStep.annotateOutliers
    ∧ (handleContinue annSelState ApiOutcome.ok).1.step ≠
        WorkflowStep.batchLabel := by
  refine ⟨by rfl, by rfl, by decide⟩

/-- C3 (amended): after a successful `mark_outliers` synchronization in
the Decision step, the controller transitions to `batch-label` iff the
candidate selection is empty and to `annotate-outliers` otherwise (the
client branches on the local candidate count and ignores the
server-reported resulting count). -/
theorem decision_branch_on_candidate_emptiness (s : PageState) (cid : String)
    (hcid : s.clusterId = some cid) (hsync : needsOutlierSync s = true) :
    ((handleContinue s ApiOutcome.ok).1.step = WorkflowStep.batchLabel ↔
      s.selectedOutlierImages.size = 0)
    ∧ ((handleContinue s ApiOutcome.ok).1.step =
          WorkflowStep.annotateOutliers ↔
        ¬ s.selectedOutlierImages.size = 0) := by
  by_cases hz : s.selectedOutlierImages.size = 0 <;>
    simp [handleContinue, hcid, hsync, hz]

/-- C3 witness: at the concrete one-candidate state the controller goes
to `annotate-outliers`. -/
theorem decision_branch_on_candidate_emptiness_witness :
    (annSelState.clusterId = some "c1")
    ∧ (needsOutlierSync annSelState = true)
    ∧ (((handleContinue annSelState ApiOutcome.ok).1.step =
          WorkflowStep.batchLabel ↔
        annSelState.selectedOutlierImages.size = 0)
      ∧ ((handleContinue annSelState ApiOutcome.ok).1.step =
            WorkflowStep.annotateOutliers ↔
          ¬ annSelState.selectedOutlierImages.size = 0)) :=
  ⟨rfl, rfl,
   decision_branch_on_candidate_emptiness annSelState "c1" rfl rfl⟩

/-! ### Step-shape lemmas for the handlers -/

theorem handleContinue_step_cases (s : PageState) (o : ApiOutcome) :
    (handleContinue s o).1.step = s.step
    ∨ (handleContinue s o).1.step = WorkflowStep.batchLabel
    ∨ (handleContinue s o).1.step = WorkflowStep.annotateOutliers := by
  cases hcl : s.clusterId with
  | none => left; simp [handleContinue, hcl]
  | some cid =>
      by_cases hn : needsOutlierSync s = true
      · cases o with
        | ok =>
            by_cases hz : s.selectedOutlierImages.size = 0
            · right; left; simp [handleContinue, hcl, hn, hz]
            · right; right; simp [handleContinue, hcl, hn, hz]
        | fail d => left; simp [handleContinue, hcl, hn]
      · have hn' : needsOutlierSync s = false := by simpa using hn
        right; left; simp [handleContinue, hcl, hn']

theorem handleBatchSubmit_step_cases (s : PageState) (o : ApiOutcome) :
    (handleBatchSubmit s o).1.step = s.step
    ∨ (handleBatchSubmit s o).1.step = WorkflowStep.done := by
  cases hcl : s.clusterId with
  | none => left; simp [handleBatchSubmit, hcl]
  | some cid =>
      by_cases ht : jsTrim s.batchLabel = ""
      · left; simp [handleBatchSubmit, hcl, ht]
      · cases o with
        | ok => right; simp [handleBatchSubmit, hcl, ht]
        | fail d => left; simp [handleBatchSubmit, hcl, ht]

theorem handleOutliersSubmit_step_cases (s : PageState) (o : ApiOutcome) :
    (handleOutliersSubmit s o).1.step = s.step
    ∨ (handleOutliersSubmit s o).1.step = WorkflowStep.labelRemaining := by
  by_cases hg : s.clusterId = none
      ∨ s.outlierAnnotations.size ≠ s.selectedOutlierImages.size
  · left; simp [handleOutliersSubmit, hg]
  · cases o with
    | ok => right; simp [handleOutliersSubmit, hg]
    | fail d => left; simp [handleOutliersSubmit, hg]

theorem applyImagesResponse_step (o : FetchOutcome PaginatedImagesResponse)
    (c : Bool) (s : PageState) : (applyImagesResponse c o s).step = s.step := by
  cases o <;> cases c <;>
    simp [applyImagesResponse, applyImagesSuccess, applyImagesFailure]

theorem applyMetadataResponse_step (o : FetchOutcome Cluster) (c : Bool)
    (s : PageState) : (applyMetadataResponse c o s).step = s.step := by
  cases o <;> cases c <;>
    simp [applyMetadataResponse, applyMetadataSuccess, applyMetadataFailure]

/-- C5: one step of the workflow machine only moves the step along the
allowed edges review→batch-label, review→annotate-outliers,
annotate-outliers→label-remaining, batch-label→done and
label-remaining→done (or stays in place); from `done` the step never
changes and no mutating API call is issued. -/
theorem workflow_step_edges_sound (s : PageState) (e : Event) :
    stepEdgeOK s.step (dispatch s e).1.step
    ∧ (s.step = WorkflowStep.done →
        (dispatch s e).1.step = WorkflowStep.done
        ∧ (dispatch s e).2 = none) := by
  cases e with
  | toggleEvt img =>
      by_cases hg : (reviewRendered s && !reviewStepDisabledProp s) = true <;>
        exact ⟨by simp [dispatch, hg, stepEdgeOK],
               fun hd => ⟨by simp [dispatch, hg, hd], by simp [dispatch, hg]⟩⟩
  | pageChangeEvt n =>
      by_cases hg : (reviewRendered s && !reviewStepDisabledProp s) = true <;>
        exact ⟨by simp [dispatch, hg, handlePageChange, stepEdgeOK],
               fun hd => ⟨by simp [dispatch, hg, handlePageChange, hd],
                          by simp [dispatch, hg]⟩⟩
  | pageSizeChangeEvt n =>
      by_cases hg : (reviewRendered s && !reviewStepDisabledProp s) = true <;>
        exact ⟨by simp [dispatch, hg, handlePageSizeChange, stepEdgeOK],
               fun hd => ⟨by simp [dispatch, hg, handlePageSizeChange, hd],
                          by simp [dispatch, hg]⟩⟩
  | continueEvt o =>
      by_cases hg : (reviewRendered s && !reviewStepDisabledProp s) = true
      · have hrev : s.step = WorkflowStep.review := by
          have := (Bool.and_eq_true _ _).mp hg
          have h1 : (s.step == WorkflowStep.review) = true := by
            have := this.1
            rw [reviewRendered] at this
            exact ((Bool.and_eq_true _ _).mp this).1
          exact eq_of_beq h1
        constructor
        · have hdisp : dispatch s (Event.continueEvt o) = handleContinue s o := by
            simp [dispatch, hg]
          rw [hdisp]
          rcases handleContinue_step_cases s o with h | h | h
          · rw [h]; left; rfl
          · rw [h, hrev]; right; left; exact ⟨rfl, rfl⟩
          · rw [h, hrev]; right; right; left; exact ⟨rfl, rfl⟩
        · intro hd
          rw [hd] at hrev
          cases hrev
      · exact ⟨by simp [dispatch, hg, stepEdgeOK],
               fun hd => ⟨by simp [dispatch, hg, hd], by simp [dispatch, hg]⟩⟩
  | batchLabelChangeEvt l c =>
      by_cases hg : (batchStepRendered s && !labelStepDisabledProp s) = true <;>
        exact ⟨by simp [dispatch, hg, handleBatchLabelChange, stepEdgeOK],
               fun hd => ⟨by simp [dispatch, hg, handleBatchLabelChange, hd],
                          by simp [dispatch, hg]⟩⟩
  | batchSubmitEvt o =>
      by_cases hg : (batchStepRendered s
          && !batchSubmitButtonDisabled s.batchLabel
              (labelStepDisabledProp s)) = true
      · have hbat : s.step = WorkflowStep.batchLabel
            ∨ s.step = WorkflowStep.labelRemaining := by
          have h1 := ((Bool.and_eq_true _ _).mp hg).1
          rw [batchStepRendered] at h1
          rcases (Bool.or_eq_true _ _).mp h1 with h | h
          · exact Or.inl (eq_of_beq h)
          · exact Or.inr (eq_of_beq h)
        constructor
        · have hdisp : dispatch s (Event.batchSubmitEvt o) =
              handleBatchSubmit s o := by
            simp [dispatch, hg]
          rw [hdisp]
          rcases handleBatchSubmit_step_cases s o with h | h
          · rw [h]; left; rfl
          · rw [h]
            rcases hbat with hb | hb <;> rw [hb]
            · right; right; right; right; left; exact ⟨rfl, rfl⟩
            · right; right; right; right; right; exact ⟨rfl, rfl⟩
        · intro hd
          rcases hbat with hb | hb <;> rw [hd] at hb <;> cases hb
      · exact ⟨by simp [dispatch, hg, stepEdgeOK],
               fun hd => ⟨by simp [dispatch, hg, hd], by simp [dispatch, hg]⟩⟩
  | outlierLabelChangeEvt id l c =>
      by_cases hg : (outlierStepRendered s && !labelStepDisabledProp s
          && s.selectedOutlierImages.hasKey id) = true <;>
        exact ⟨by simp [dispatch, hg, stepEdgeOK],
               fun hd => ⟨by simp [dispatch, hg, hd], by simp [dispatch, hg]⟩⟩
  | outliersSubmitEvt o =>
      by_cases hg : (outlierStepRendered s
          && !outlierSubmitButtonDisabled s.outlierAnnotations
              s.selectedOutlierImages.valuesList (labelStepDisabledProp s)) = true
      · have hout : s.step = WorkflowStep.annotateOutliers := by
          have h1 := ((Bool.and_eq_true _ _).mp hg).1
          rw [outlierStepRendered] at h1
          exact eq_of_beq h1
        constructor
        · have hdisp : dispatch s (Event.outliersSubmitEvt o) =
              handleOutliersSubmit s o := by
            simp [dispatch, hg]
          rw [hdisp]
          rcases handleOutliersSubmit_step_cases s o with h | h
          · rw [h]; left; rfl
          · rw [h, hout]; right; right; right; left; exact ⟨rfl, rfl⟩
        · intro hd
          rw [hd] at hout
          cases hout
      · exact ⟨by simp [dispatch, hg, stepEdgeOK],
               fun hd => ⟨by simp [dispatch, hg, hd], by simp [dispatch, hg]⟩⟩
  | outliersLoadedEvt o =>
      exact ⟨by simp [dispatch, stepEdgeOK],
             fun hd => ⟨by simp [dispatch, hd], by simp [dispatch]⟩⟩
  | metadataLoadedEvt o =>
      refine ⟨?_, fun hd => ⟨?_, by simp [dispatch]⟩⟩
      · have := applyMetadataResponse_step o false s
        simp only [dispatch]
        rw [this]
        left; rfl
      · have := applyMetadataResponse_step o false s
        simp only [dispatch]
        rw [this, hd]
  | imagesLoadedEvt o =>
      by_cases hg : (s.step == WorkflowStep.review) = true
      · refine ⟨?_, fun hd => ?_⟩
        · have := applyImagesResponse_step o false s
          simp only [dispatch, hg, if_true]
          rw [this]
          left; rfl
        · rw [hd] at hg
          cases (by simpa using hg : WorkflowStep.done = WorkflowStep.review)
      · exact ⟨by simp [dispatch, hg, stepEdgeOK],
               fun hd => ⟨by simp [dispatch, hg, hd], by simp [dispatch, hg]⟩⟩

/-- C5 witness: the edge facts instantiated at the concrete done-state
and a Continue click: the step stays `done` and no call is issued. -/
theorem workflow_step_edges_sound_witness :
    stepEdgeOK ({ baseState with step := WorkflowStep.done } :
        PageState).step
      (dispatch { baseState with step := WorkflowStep.done }
        (Event.continueEvt ApiOutcome.ok)).1.step
    ∧ (({ baseState with step := WorkflowStep.done } : PageState).step =
          WorkflowStep.done →
        (dispatch { baseState with step := WorkflowStep.done }
          (Event.continueEvt ApiOutcome.ok)).1.step = WorkflowStep.done
        ∧ (dispatch { baseState with step := WorkflowStep.done }
            (Event.continueEvt ApiOutcome.ok)).2 = none) :=
  workflow_step_edges_sound { baseState with step := WorkflowStep.done }
    (Event.continueEvt ApiOutcome.ok)

/-! ### Helper lemmas for C4 -/

theorem mem_valuesList_set {α : Type} (m : JsMap α) (k : String) (v w : α)
    (h : w ∈ (m.set k v).valuesList) : w = v ∨ w ∈ m.valuesList := by
  obtain ⟨l⟩ := m
  induction l with
  | nil =>
      left
      simpa [JsMap.set, JsMap.setEntries, JsMap.valuesList] using h
  | cons p t ih =>
      obtain ⟨k₀, v₀⟩ := p
      rw [JsMap.set_cons] at h
      by_cases hk : k₀ = k
      · rw [if_pos hk] at h
        simp only [JsMap.valuesList, List.map_cons, List.mem_cons] at h ⊢
        rcases h with h | h
        · left; exact h
        · right; right; exact h
      · rw [if_neg hk] at h
        simp only [JsMap.valuesList, List.map_cons, List.mem_cons] at h ⊢
        rcases h with h | h
        · right; left; exact h
        · rcases ih (by simpa [JsMap.valuesList] using h) with h2 | h2
          · left; exact h2
          · right; right; simpa [JsMap.valuesList] using h2

theorem mem_valuesList_del {α : Type} (m : JsMap α) (k : String) (w : α)
    (h : w ∈ (m.del k).valuesList) : w ∈ m.valuesList := by
  simp only [JsMap.del, JsMap.valuesList, List.mem_map] at h ⊢
  obtain ⟨p, hp, hw⟩ := h
  exact ⟨p, List.mem_of_mem_filter hp, hw⟩

theorem valuesList_length_eq_size {α : Type} (m : JsMap α) :
    m.valuesList.length = m.size := by
  simp [JsMap.valuesList, JsMap.size]

theorem keys_covered_of_subset_of_length (l1 l2 : List String)
    (h1 : l1.Nodup) (h2 : l2.Nodup) (hsub : ∀ x ∈ l1, x ∈ l2)
    (hlen : l1.length = l2.length) : ∀ x ∈ l2, x ∈ l1 := by
  have hsub' : l1.toFinset ⊆ l2.toFinset := by
    intro x hx
    exact List.mem_toFinset.mpr (hsub x (List.mem_toFinset.mp hx))
  have hcard1 : l1.toFinset.card = l1.length := List.toFinset_card_of_nodup h1
  have hcard2 : l2.toFinset.card = l2.length := List.toFinset_card_of_nodup h2
  have heq : l1.toFinset = l2.toFinset :=
    Finset.eq_of_subset_of_card_le hsub' (by rw [hcard1, hcard2, hlen])
  intro x hx
  exact List.mem_toFinset.mp (heq ▸ List.mem_toFinset.mpr hx)

theorem outliersSubmit_call_size (s : PageState) (o : ApiOutcome)
    (call : ApiCall)
    (h : (dispatch s (Event.outliersSubmitEvt o)).2 = some call) :
    s.outlierAnnotations.size = s.selectedOutlierImages.size := by
  by_cases hg : (outlierStepRendered s
      && !outlierSubmitButtonDisabled s.outlierAnnotations
          s.selectedOutlierImages.valuesList (labelStepDisabledProp s)) = true
  · by_cases hi : s.clusterId = none
        ∨ s.outlierAnnotations.size ≠ s.selectedOutlierImages.size
    · simp [dispatch, hg, handleOutliersSubmit, hi] at h
    · push_neg at hi
      exact hi.2
  · simp [dispatch, hg] at h

/-- C4: the outlier-annotation submit is enabled only when the number of
entered annotations equals the number of outlier images; an empty label
deletes its entry and the annotation map never holds an empty label;
whenever the annotate-outliers request is issued every outlier image has
a non-empty entered label; and the step becomes `label-remaining` only
when the request was issued and succeeded. -/
theorem outlier_submit_complete_labels (s : PageState) (outcome : ApiOutcome)
    (hwf1 : s.outlierAnnotations.wf) (hwf2 : s.selectedOutlierImages.wf)
    (hkeyed : ∀ p ∈ s.selectedOutlierImages.entries, p.1 = p.2.id)
    (hsub : ∀ k ∈ s.outlierAnnotations.keysList,
      s.selectedOutlierImages.hasKey k = true)
    (hlab : ∀ v ∈ s.outlierAnnotations.valuesList, v.label ≠ "") :
    (∀ d, outlierSubmitButtonDisabled s.outlierAnnotations
        s.selectedOutlierImages.valuesList d = false →
      s.outlierAnnotations.size = s.selectedOutlierImages.size)
    ∧ (∀ id c (m : JsMap OutlierLabelEntry),
        handleOutlierLabelChange id "" c m = m.del id)
    ∧ (∀ id l c, ∀ v ∈ (handleOutlierLabelChange id l c
        s.outlierAnnotations).valuesList, v.label ≠ "")
    ∧ (∀ call, (dispatch s (Event.outliersSubmitEvt outcome)).2 = some call →
        ∀ img ∈ s.selectedOutlierImages.valuesList,
          ∃ a, s.outlierAnnotations.get img.id = some a ∧ a.label ≠ "")
    ∧ ((dispatch s (Event.outliersSubmitEvt outcome)).1.step =
          WorkflowStep.labelRemaining →
        s.step = WorkflowStep.labelRemaining
        ∨ ((dispatch s (Event.outliersSubmitEvt outcome)).2 ≠ none
            ∧ outcome = ApiOutcome.ok)) := by
  refine ⟨?_, ?_, ?_, ?_, ?_⟩
  · intro d h
    rw [outlierSubmitButtonDisabled] at h
    rcases (Bool.or_eq_false_iff).mp h with ⟨h1, _⟩
    have := bne_eq_false_iff_eq.mp h1
    rw [this, valuesList_length_eq_size]
  · intro id c m
    simp [handleOutlierLabelChange]
  · intro id l c v hv
    by_cases hl : l = ""
    · subst hl
      rw [handleOutlierLabelChange] at hv
      simp only [ne_eq, not_true_eq_false, if_false] at hv
      exact hlab v (mem_valuesList_del _ _ _ hv)
    · rw [handleOutlierLabelChange, if_pos hl] at hv
      rcases mem_valuesList_set _ _ _ _ hv with h | h
      · rw [h]
        simpa using hl
      · exact hlab v h
  · intro call hcall img hmem
    have hsize := outliersSubmit_call_size s outcome call hcall
    have hsubList : ∀ x ∈ s.outlierAnnotations.keysList,
        x ∈ s.selectedOutlierImages.keysList := by
      intro x hx
      exact (JsMap.hasKey_iff_mem_keysList _ _).mp (hsub x hx)
    have hcover := keys_covered_of_subset_of_length
      s.outlierAnnotations.keysList s.selectedOutlierImages.keysList
      hwf1 hwf2 hsubList
      (by rw [← JsMap.size_eq_keysList_length, ← JsMap.size_eq_keysList_length,
        hsize])
    obtain ⟨k, hk⟩ := JsMap.mem_valuesList_exists_key _ img hmem
    have hkid : k = img.id := hkeyed (k, img) hk
    have hkeyMem : img.id ∈ s.selectedOutlierImages.keysList := by
      rw [← hkid]
      exact List.mem_map.mpr ⟨(k, img), hk, rfl⟩
    have hannMem : img.id ∈ s.outlierAnnotations.keysList :=
      hcover img.id hkeyMem
    have hhk : s.outlierAnnotations.hasKey img.id = true :=
      (JsMap.hasKey_iff_mem_keysList _ _).mpr hannMem
    rw [JsMap.hasKey] at hhk
    obtain ⟨a, ha⟩ := Option.isSome_iff_exists.mp hhk
    exact ⟨a, ha, hlab a (JsMap.get_mem_valuesList _ _ _ ha)⟩
  · intro hstep
    by_cases hg : (outlierStepRendered s
        && !outlierSubmitButtonDisabled s.outlierAnnotations
            s.selectedOutlierImages.valuesList (labelStepDisabledProp s)) = true
    · by_cases hi : s.clusterId = none
          ∨ s.outlierAnnotations.size ≠ s.selectedOutlierImages.size
      · left
        simpa [dispatch, hg, handleOutliersSubmit, hi] using hstep
      · cases outcome with
        | ok =>
            right
            constructor
            · simp [dispatch, hg, handleOutliersSubmit, hi]
            · rfl
        | fail d =>
            left
            simpa [dispatch, hg, handleOutliersSubmit, hi] using hstep
    · left
      simpa [dispatch, hg] using hstep

/-- C4 witness: the submit facts instantiated at a concrete
annotate-outliers state with one outlier labelled "Ross". -/
theorem outlier_submit_complete_labels_witness :
    (outlierState.outlierAnnotations.wf
      ∧ outlierState.selectedOutlierImages.wf
      ∧ (∀ p ∈ outlierState.selectedOutlierImages.entries, p.1 = p.2.id)
      ∧ (∀ k ∈ outlierState.outlierAnnotations.keysList,
          outlierState.selectedOutlierImages.hasKey k = true)
      ∧ (∀ v ∈ outlierState.outlierAnnotations.valuesList, v.label ≠ ""))
    ∧ ((∀ d, outlierSubmitButtonDisabled outlierState.outlierAnnotations
          outlierState.selectedOutlierImages.valuesList d = false →
        outlierState.outlierAnnotations.size =
          outlierState.selectedOutlierImages.size)
      ∧ (∀ id c (m : JsMap OutlierLabelEntry),
          handleOutlierLabelChange id "" c m = m.del id)
      ∧ (∀ id l c, ∀ v ∈ (handleOutlierLabelChange id l c
          outlierState.outlierAnnotations).valuesList, v.label ≠ "")
      ∧ (∀ call, (dispatch outlierState
            (Event.outliersSubmitEvt ApiOutcome.ok)).2 = some call →
          ∀ img ∈ outlierState.selectedOutlierImages.valuesList,
            ∃ a, outlierState.outlierAnnotations.get img.id = some a
              ∧ a.label ≠ "")
      ∧ ((dispatch outlierState
            (Event.outliersSubmitEvt ApiOutcome.ok)).1.step =
            WorkflowStep.labelRemaining →
          outlierState.step = WorkflowStep.labelRemaining
          ∨ ((dispatch outlierState
              (Event.outliersSubmitEvt ApiOutcome.ok)).2 ≠ none
              ∧ ApiOutcome.ok = ApiOutcome.ok))) :=
  ⟨⟨by decide, by decide, by decide, by decide, by decide⟩,
   outlier_submit_complete_labels outlierState ApiOutcome.ok
     (by decide) (by decide) (by decide) (by decide) (by decide)⟩

end ClusterMark
